import Mathlib

/-!
# Verification of the autozoom extension core

A shallow embedding of the text-size analysis and gradual-zoom-convergence
engine of the autozoom browser extension (`content.js`, `background.js`).
Numbers that are JS floats in the source are modelled as rationals (`ℚ`).
-/

namespace Autozoom

/-! ## Font-size histogram (`content.js`, `analyzeTextSizes` /
`calculatePredominantSize`)

The source accumulates weights into a plain JS object:
`fontSizes[fontSize] = (fontSizes[fontSize] || 0) + textLength`.
We model the object as an association list in key-insertion order with
distinct keys; `insertContribution` mirrors the accumulation statement. -/

def insertContribution : List (ℚ × ℚ) → ℚ → ℚ → List (ℚ × ℚ)
  | [], size, weight => [(size, weight)]
  | (s, w) :: rest, size, weight =>
    if s = size then (s, w + weight) :: rest
    else (s, w) :: insertContribution rest size weight

/-- JS object property enumeration puts keys that are canonical array
indices (non-negative integers below 2^32 - 1) first, in ascending numeric
order; all other keys follow in insertion order.  A font-size number key is
an array index exactly when it is such an integer. -/
def isArrayIndexKey (s : ℚ) : Bool :=
  s.den == 1 && (0 ≤ s.num && s.num < 4294967295)

def insertSorted (p : ℚ × ℚ) : List (ℚ × ℚ) → List (ℚ × ℚ)
  | [] => [p]
  | q :: rest => if p.1 < q.1 then p :: q :: rest else q :: insertSorted p rest

def sortByKey (l : List (ℚ × ℚ)) : List (ℚ × ℚ) :=
  l.foldr insertSorted []

/-- The entry sequence `Object.entries(fontSizes)` iterates over: integer
(array-index) keys ascending, then the remaining keys in insertion order. -/
def jsEntries (h : List (ℚ × ℚ)) : List (ℚ × ℚ) :=
  sortByKey (h.filter fun p => isArrayIndexKey p.1) ++
    h.filter fun p => !isArrayIndexKey p.1

/-- One loop iteration of `calculatePredominantSize`: the accumulator is
`(predominantSize, maxWeight)`, updated only on strictly greater weight. -/
def predominantStep (acc p : ℚ × ℚ) : ℚ × ℚ :=
  if p.2 > acc.2 then p else acc

/-- `calculatePredominantSize` (content.js:339-351): scan the entries with a
running strict maximum, starting from size 0 / weight 0. -/
def calculatePredominantSize (fontSizes : List (ℚ × ℚ)) : ℚ :=
  ((jsEntries fontSizes).foldl predominantStep (0, 0)).1

/-! ## Zoom convergence engine (`background.js`) -/

/-- `clampZoom` (background.js:104-106): `Math.min(Math.max(zoom, 0.25), 5.0)`. -/
def clampZoom (zoom : ℚ) : ℚ :=
  min (max zoom (1/4)) 5

/-- `applyGradualZoom` (background.js:52-91) together with `setFinalZoom`
(background.js:93-102), under the assumption that the zoom provider reports
no errors and that every applied step persists (each iteration reads back
as current the value it just set).  The source loop is a chain of deferred
self-calls with no bound; `fuel` bounds the number of iterations in the
model.  The result is the list of values passed to `chrome.tabs.setZoom`
in order, paired with whether the loop reached its success response within
`fuel` iterations (`false` means the fuel ran out, a model artifact). -/
def applyGradualZoom (fuel : ℕ) (currentZoom targetZoom : ℚ) : List ℚ × Bool :=
  match fuel with
  | 0 => ([], false)
  | fuel + 1 =>
    if |currentZoom - targetZoom| < 1/100 then
      ([], true)
    else
      let isZoomingIn := targetZoom > currentZoom
      let increment : ℚ := if isZoomingIn then 1/20 else -(1/20)
      let nextZoom := clampZoom (currentZoom + increment)
      if (isZoomingIn ∧ nextZoom ≥ targetZoom) ∨
          (¬isZoomingIn ∧ nextZoom ≤ targetZoom) then
        ([nextZoom, targetZoom], true)
      else
        let rest := applyGradualZoom fuel nextZoom targetZoom
        (nextZoom :: rest.1, rest.2)

/-- The gradual-zoom loop of background.js:52-91 evaluated at a `NaN`
target.  In JS, `Math.abs(current - NaN) < 0.01`, `NaN > current`,
`next >= NaN` and `next <= NaN` are all false, so every iteration takes
the tolerance-miss path with `isZoomingIn = false`, applies
`clampZoom (current - 0.05)` as the next zoom, fails the arrival check and
defers to the next iteration: the loop steps down towards the 0.25 clamp
forever and neither success branch is ever reached. -/
def applyGradualZoomNaN (fuel : ℕ) (currentZoom : ℚ) : List ℚ × Bool :=
  match fuel with
  | 0 => ([], false)
  | fuel + 1 =>
    let nextZoom := clampZoom (currentZoom + -(1/20))
    let rest := applyGradualZoomNaN fuel nextZoom
    (nextZoom :: rest.1, rest.2)

/-- A JS value sent as `message.zoomLevel`: an ordinary (non-NaN) number,
the number `NaN` (whose `typeof` is still `"number"` but which compares
false to everything), or anything whose `typeof` is not `"number"`. -/
inductive JSValue
  | num (q : ℚ)
  | nan
  | nonNumber
deriving DecidableEq

inductive Response
  | ok
  | err (msg : String)
deriving DecidableEq

structure SetZoomOutcome where
  response : Response
  applied : List ℚ
  readCurrentZoom : Bool
deriving DecidableEq

/-- `handleSetZoom` (background.js:27-37): validate the requested level
(`typeof !== "number"`, below 0.25 or above 5.0 is rejected with
`"Invalid zoom level"` before any zoom activity), otherwise run the
gradual-zoom loop.  The `"unfinished"` response stands for the model-only
fuel-exhaustion case. -/
def handleSetZoom (fuel : ℕ) (currentZoom : ℚ) (zoomLevel : JSValue) :
    SetZoomOutcome :=
  match zoomLevel with
  | .nonNumber => ⟨.err "Invalid zoom level", [], false⟩
  | .nan =>
    -- `typeof NaN !== "number"`, `NaN < 0.25` and `NaN > 5.0` are all
    -- false, so validation passes and the loop runs with a NaN target
    let r := applyGradualZoomNaN fuel currentZoom
    ⟨if r.2 then .ok else .err "unfinished", r.1, true⟩
  | .num q =>
    if q < 1/4 ∨ q > 5 then ⟨.err "Invalid zoom level", [], false⟩
    else
      let r := applyGradualZoom fuel currentZoom q
      ⟨if r.2 then .ok else .err "unfinished", r.1, true⟩

inductive BgAction
  | setZoom (zoomLevel : JSValue)
  | getZoom
  | unknown
deriving DecidableEq

structure BgOutcome where
  response : Response
  readCurrentZoom : Bool
  applied : List ℚ
deriving DecidableEq

/-- `handleMessage` (background.js:7-25): reject a sender without a tab id
(`!sender?.tab?.id`; JS truthiness also rejects id `0`) before touching any
zoom state, then dispatch on the action name. -/
def bgHandleMessage (senderTabId : Option ℤ) (action : BgAction) (fuel : ℕ)
    (currentZoom : ℚ) : BgOutcome :=
  match senderTabId with
  | none => ⟨.err "Invalid sender", false, []⟩
  | some tabId =>
    if tabId = 0 then ⟨.err "Invalid sender", false, []⟩
    else
      match action with
      | .setZoom v =>
        let r := handleSetZoom fuel currentZoom v
        ⟨r.response, r.readCurrentZoom, r.applied⟩
      | .getZoom => ⟨.ok, true, []⟩
      | .unknown => ⟨.err "Unknown action", false, []⟩

/-! ## Content-script analysis and decision policy (`content.js`) -/

structure Config where
  minFontSize : ℚ
  zoomLevel : ℚ
  maxElementsToAnalyze : ℕ
deriving DecidableEq

/-- A candidate element as returned by the text-kind selector query:
its text content, whether it is visible (non-zero rendered box), and its
computed font size in px. -/
structure PageElement where
  text : String
  visible : Bool
  fontSize : ℚ
deriving DecidableEq

/-- `getTextElements` (content.js:269-277): keep elements whose trimmed
text is truthy (non-empty) of length ≥ 10 and which are visible. -/
def getTextElements (elements : List PageElement) : List PageElement :=
  elements.filter fun e =>
    !(e.text.trim == "") && decide (10 ≤ e.text.trim.length) && e.visible

/-- `analyzeTextSizes` (content.js:293-332): accumulate trimmed text length
into the bucket of the element's computed font size, skipping elements with
non-positive size or empty text.  The batching only chunks this same loop,
so its result is the plain fold. -/
def analyzeTextSizes (elements : List PageElement) : List (ℚ × ℚ) :=
  elements.foldl
    (fun fontSizes e =>
      let textLength := e.text.trim.length
      if 0 < e.fontSize ∧ 0 < textLength then
        insertContribution fontSizes e.fontSize (textLength : ℚ)
      else fontSizes)
    []

/-- Result of `getCurrentZoom` (content.js:415-429): the resolved zoom
factor, or a rejection (runtime error, missing response, `success:false`). -/
inductive GetZoomOutcome
  | ok (zoomLevel : ℚ)
  | err
deriving DecidableEq

/-- Observable effects of one `checkAndApplyZoom` run. -/
structure ZoomDecision where
  markerWrite : Option String
  zoomRequest : Option ℚ
deriving DecidableEq

/-- `checkAndApplyZoom` (content.js:360-409): `markerWrite` is the value
passed to `sessionStorage.setItem` (if any), `zoomRequest` the target sent
in a `setZoom` message (if any); `applySucceeds` is whether that request
resolves with `success:true`. -/
def checkAndApplyZoom (config : Config) (predominantSize : ℚ)
    (currentZoom : GetZoomOutcome) (applySucceeds : Bool) : ZoomDecision :=
  if predominantSize ≤ 0 then ⟨some "processed", none⟩
  else if predominantSize ≥ config.minFontSize then ⟨some "processed", none⟩
  else
    match currentZoom with
    | .err => ⟨none, none⟩
    | .ok z =>
      if z ≠ 1 ∧ z ≥ config.zoomLevel then ⟨some "processed", none⟩
      else if applySucceeds then ⟨some "zoomed", some config.zoomLevel⟩
      else ⟨none, some config.zoomLevel⟩

/-- JS truthiness of `sessionStorage.getItem(storageKey)`: absent (`null`)
and the empty string are falsy. -/
def markerTruthy : Option String → Bool
  | none => false
  | some s => !(s == "")

/-- Observable effects of one `analyzeAndZoom` run. -/
structure AnalysisOutcome where
  measured : Bool
  markerWrite : Option String
  zoomRequest : Option ℚ
deriving DecidableEq

/-- `analyzeAndZoom` (content.js:197-235) with `DEV_MODE = false`:
short-circuit on an existing session marker, stop with no effect when no
qualifying text elements are found, otherwise measure the first
`maxElementsToAnalyze` qualifying elements and hand the predominant size to
`checkAndApplyZoom`.  `domElements` models the container's selector query
result; `measured` records whether `analyzeTextSizes` ran. -/
def analyzeAndZoom (config : Config) (marker : Option String)
    (domElements : List PageElement) (currentZoom : GetZoomOutcome)
    (applySucceeds : Bool) : AnalysisOutcome :=
  if markerTruthy marker then ⟨false, none, none⟩
  else
    let textElements := getTextElements domElements
    if textElements.length = 0 then ⟨false, none, none⟩
    else
      let elementsToAnalyze := textElements.take config.maxElementsToAnalyze
      let fontSizes := analyzeTextSizes elementsToAnalyze
      let predominantSize := calculatePredominantSize fontSizes
      let d := checkAndApplyZoom config predominantSize currentZoom applySucceeds
      ⟨true, d.markerWrite, d.zoomRequest⟩

/-- The session marker for the domain after a run: `sessionStorage.setItem`
overwrites, otherwise the previous value remains. -/
def finalMarker (initial : Option String) (r : AnalysisOutcome) :
    Option String :=
  match r.markerWrite with
  | some v => some v
  | none => initial

/-! ## Helper lemmas about the histogram model -/

theorem insertSorted_perm (p : ℚ × ℚ) (l : List (ℚ × ℚ)) :
    (insertSorted p l).Perm (p :: l) := by
  induction l with
  | nil => rfl
  | cons q t ih =>
    by_cases h : p.1 < q.1
    · simp [insertSorted, h]
    · simp only [insertSorted, h, if_false]
      exact (ih.cons q).trans (List.Perm.swap p q t)

theorem sortByKey_perm (l : List (ℚ × ℚ)) : (sortByKey l).Perm l := by
  induction l with
  | nil => rfl
  | cons p t ih =>
    exact (insertSorted_perm p (sortByKey t)).trans (ih.cons p)

theorem insertSorted_sorted (p : ℚ × ℚ) (l : List (ℚ × ℚ))
    (hl : l.Sorted fun a b => a.1 ≤ b.1) :
    (insertSorted p l).Sorted fun a b => a.1 ≤ b.1 := by
  induction l with
  | nil => simp [insertSorted]
  | cons q t ih =>
    rw [List.sorted_cons] at hl
    by_cases h : p.1 < q.1
    · rw [insertSorted, if_pos h, List.sorted_cons]
      refine ⟨?_, List.sorted_cons.mpr hl⟩
      intro b hb
      rcases List.mem_cons.mp hb with rfl | hb
      · exact h.le
      · exact h.le.trans (hl.1 b hb)
    · rw [insertSorted, if_neg h, List.sorted_cons]
      refine ⟨?_, ih hl.2⟩
      intro b hb
      rcases List.mem_cons.mp ((insertSorted_perm p t).mem_iff.mp hb) with rfl | hb
      · exact le_of_not_lt h
      · exact hl.1 b hb

theorem sortByKey_sorted (l : List (ℚ × ℚ)) :
    (sortByKey l).Sorted fun a b => a.1 ≤ b.1 := by
  induction l with
  | nil => simp [sortByKey]
  | cons p t ih => exact insertSorted_sorted p (sortByKey t) ih

theorem sorted_eq_of_perm_of_nodup_keys {l₁ l₂ : List (ℚ × ℚ)}
    (hp : l₁.Perm l₂) (hs₁ : l₁.Sorted fun a b => a.1 ≤ b.1)
    (hs₂ : l₂.Sorted fun a b => a.1 ≤ b.1)
    (hn : (l₁.map Prod.fst).Nodup) : l₁ = l₂ := by
  have hn₂ : (l₂.map Prod.fst).Nodup := ((hp.map Prod.fst).nodup_iff).mp hn
  have key_ne₁ : l₁.Pairwise fun a b => a.1 ≠ b.1 := (List.pairwise_map).mp hn
  have key_ne₂ : l₂.Pairwise fun a b => a.1 ≠ b.1 := (List.pairwise_map).mp hn₂
  have hlt₁ : l₁.Sorted fun a b : ℚ × ℚ => a.1 < b.1 :=
    (hs₁.and key_ne₁).imp fun h => lt_of_le_of_ne h.1 h.2
  have hlt₂ : l₂.Sorted fun a b : ℚ × ℚ => a.1 < b.1 :=
    (hs₂.and key_ne₂).imp fun h => lt_of_le_of_ne h.1 h.2
  haveI : IsAntisymm (ℚ × ℚ) fun a b => a.1 < b.1 :=
    ⟨fun _ _ h1 h2 => (lt_asymm h1 h2).elim⟩
  exact List.eq_of_perm_of_sorted hp hlt₁ hlt₂

theorem mem_jsEntries {p : ℚ × ℚ} {h : List (ℚ × ℚ)} :
    p ∈ jsEntries h ↔ p ∈ h := by
  unfold jsEntries
  rw [List.mem_append, (sortByKey_perm _).mem_iff, List.mem_filter,
    List.mem_filter]
  constructor
  · rintro (⟨hm, _⟩ | ⟨hm, _⟩) <;> exact hm
  · intro hm
    by_cases hk : isArrayIndexKey p.1
    · exact Or.inl ⟨hm, by simp [hk]⟩
    · exact Or.inr ⟨hm, by simp [hk]⟩

theorem foldl_predominantStep_spec (l : List (ℚ × ℚ)) (init : ℚ × ℚ) :
    init.2 ≤ (l.foldl predominantStep init).2 ∧
      (l.foldl predominantStep init = init ∨ l.foldl predominantStep init ∈ l) ∧
      ∀ p ∈ l, p.2 ≤ (l.foldl predominantStep init).2 := by
  induction l generalizing init with
  | nil => simp
  | cons q t ih =>
    rw [List.foldl_cons]
    obtain ⟨ih1, ih2, ih3⟩ := ih (predominantStep init q)
    have hstep : init.2 ≤ (predominantStep init q).2 ∧
        q.2 ≤ (predominantStep init q).2 ∧
        (predominantStep init q = init ∨ predominantStep init q = q) := by
      unfold predominantStep
      by_cases hq : q.2 > init.2
      · simp [hq, hq.le]
      · simp [hq, le_of_not_lt hq]
    refine ⟨hstep.1.trans ih1, ?_, ?_⟩
    · rcases ih2 with heq | hmem
      · rcases hstep.2.2 with h | h
        · exact Or.inl (heq.trans h)
        · exact Or.inr (List.mem_cons.mpr (Or.inl (heq.trans h)))
      · exact Or.inr (List.mem_cons.mpr (Or.inr hmem))
    · intro p hp
      rcases List.mem_cons.mp hp with rfl | hp
      · exact hstep.2.1.trans ih1
      · exact ih3 p hp

theorem foldl_predominantStep_of_all_le (l : List (ℚ × ℚ)) (init : ℚ × ℚ)
    (hle : ∀ p ∈ l, p.2 ≤ init.2) : l.foldl predominantStep init = init := by
  induction l with
  | nil => rfl
  | cons q t ih =>
    have hq : ¬ q.2 > init.2 := not_lt.mpr (hle q (List.mem_cons_self q t))
    rw [List.foldl_cons]
    rw [predominantStep, if_neg hq]
    exact ih fun p hp => hle p (List.mem_cons_of_mem q hp)

/-! ## Claim theorems -/

/-- C5: `calculatePredominantSize` returns a font size of maximum
accumulated weight whenever some weight is positive, returns 0 when the
histogram is empty or all weights are non-positive, and on the concrete
histograms `{12:100, 16:300, 24:50}`, `{}` and `{18:200}` returns 16, 0
and 18 respectively. -/
theorem claim_C5 :
    (∀ h : List (ℚ × ℚ), (∀ p ∈ h, p.2 ≤ 0) → calculatePredominantSize h = 0)
    ∧ (∀ h : List (ℚ × ℚ), (∃ p ∈ h, 0 < p.2) →
        ∃ w : ℚ, (calculatePredominantSize h, w) ∈ h ∧ ∀ p ∈ h, p.2 ≤ w)
    ∧ calculatePredominantSize [(12, 100), (16, 300), (24, 50)] = 16
    ∧ calculatePredominantSize [] = 0
    ∧ calculatePredominantSize [(18, 200)] = 18 := by
  refine ⟨?_, ?_, by with_unfolding_all decide, by with_unfolding_all decide,
    by with_unfolding_all decide⟩
  · intro h hle
    have : (jsEntries h).foldl predominantStep (0, 0) = (0, 0) :=
      foldl_predominantStep_of_all_le _ _ fun p hp =>
        hle p (mem_jsEntries.mp hp)
    rw [calculatePredominantSize, this]
  · intro h hpos
    obtain ⟨q, hq, hqpos⟩ := hpos
    obtain ⟨_, h2, h3⟩ := foldl_predominantStep_spec (jsEntries h) (0, 0)
    set r := (jsEntries h).foldl predominantStep (0, 0) with hr
    have hrmem : r ∈ h := by
      rcases h2 with heq | hmem
      · exfalso
        have := h3 q (mem_jsEntries.mpr hq)
        rw [heq] at this
        exact absurd (hqpos.trans_le this) (lt_irrefl 0)
      · exact mem_jsEntries.mp hmem
    refine ⟨r.2, ?_, fun p hp => h3 p (mem_jsEntries.mpr hp)⟩
    rw [calculatePredominantSize, ← hr]
    exact hrmem

/-- C5 witness: the general parts of C5 instantiated on the concrete
histogram `{18:200}`. -/
theorem claim_C5_witness :
    (∃ w : ℚ, (calculatePredominantSize [((18 : ℚ), (200 : ℚ))], w) ∈
        [((18 : ℚ), (200 : ℚ))] ∧ ∀ p ∈ [((18 : ℚ), (200 : ℚ))], p.2 ≤ w)
    ∧ calculatePredominantSize ([] : List (ℚ × ℚ)) = 0 :=
  ⟨claim_C5.2.1 [(18, 200)] ⟨(18, 200), by simp, by norm_num⟩,
    claim_C5.1 [] (by simp)⟩

/-- C1 counterexample: building the histogram by inserting `(16, 100)`
first and `(12, 100)` second leaves two equal-weight buckets whose
earlier-inserted size is 16, yet `calculatePredominantSize` resolves to 12:
`Object.entries` enumerates integer-like keys in ascending numeric order,
not insertion order, so the earlier-inserted size does not win the tie. -/
theorem claim_C1_counterexample :
    insertContribution (insertContribution [] 16 100) 12 100 =
      [((16 : ℚ), (100 : ℚ)), (12, 100)]
    ∧ calculatePredominantSize
        (insertContribution (insertContribution [] 16 100) 12 100) = 12
    ∧ (12 : ℚ) ≠ 16 := by
  with_unfolding_all decide

/-- C1 amended: resolution is independent of insertion order for
histograms whose sizes are all integer (array-index) keys, and when two
such sizes end with equal accumulated weight the numerically smaller size
wins (the strict `>` comparison lets the first key in JS enumeration order
win, and enumeration sorts integer keys ascending), regardless of which
was inserted first. -/
theorem claim_C1_amended :
    (∀ h₁ h₂ : List (ℚ × ℚ), h₁.Perm h₂ →
      (∀ p ∈ h₁, isArrayIndexKey p.1 = true) →
      (h₁.map Prod.fst).Nodup →
      calculatePredominantSize h₁ = calculatePredominantSize h₂)
    ∧ (∀ s₁ s₂ w : ℚ, isArrayIndexKey s₁ = true → isArrayIndexKey s₂ = true →
      s₁ < s₂ → 0 < w →
      calculatePredominantSize [(s₁, w), (s₂, w)] = s₁
      ∧ calculatePredominantSize [(s₂, w), (s₁, w)] = s₁) := by
  constructor
  · intro h₁ h₂ hperm hall hnodup
    have f₁ : h₁.filter (fun p => isArrayIndexKey p.1) = h₁ :=
      List.filter_eq_self.mpr hall
    have f₂ : h₂.filter (fun p => isArrayIndexKey p.1) = h₂ :=
      List.filter_eq_self.mpr fun p hp => hall p (hperm.mem_iff.mpr hp)
    have g₁ : h₁.filter (fun p => !isArrayIndexKey p.1) = [] :=
      List.filter_eq_nil_iff.mpr fun p hp => by simp [hall p hp]
    have g₂ : h₂.filter (fun p => !isArrayIndexKey p.1) = [] :=
      List.filter_eq_nil_iff.mpr fun p hp => by
        simp [hall p (hperm.mem_iff.mpr hp)]
    have e₁ : jsEntries h₁ = sortByKey h₁ := by
      rw [jsEntries, f₁, g₁, List.append_nil]
    have e₂ : jsEntries h₂ = sortByKey h₂ := by
      rw [jsEntries, f₂, g₂, List.append_nil]
    have hsorteq : sortByKey h₁ = sortByKey h₂ :=
      sorted_eq_of_perm_of_nodup_keys
        ((sortByKey_perm h₁).trans (hperm.trans (sortByKey_perm h₂).symm))
        (sortByKey_sorted h₁) (sortByKey_sorted h₂)
        (((sortByKey_perm h₁).map Prod.fst).nodup_iff.mpr hnodup)
    rw [calculatePredominantSize, calculatePredominantSize, e₁, e₂, hsorteq]
  · intro s₁ s₂ w h1 h2 hlt hw
    constructor <;>
      simp [calculatePredominantSize, jsEntries, sortByKey, insertSorted,
        predominantStep, List.filter, h1, h2, hlt, not_lt.mpr hlt.le, hw,
        lt_irrefl]

/-- C1 witness: the amended claim instantiated at integer sizes 12 and 16
with equal weight 100, in both insertion orders. -/
theorem claim_C1_witness :
    calculatePredominantSize [((12 : ℚ), (100 : ℚ)), (16, 100)] =
      calculatePredominantSize [((16 : ℚ), (100 : ℚ)), (12, 100)]
    ∧ calculatePredominantSize [((12 : ℚ), (100 : ℚ)), (16, 100)] = 12 :=
  ⟨claim_C1_amended.1 [(12, 100), (16, 100)] [(16, 100), (12, 100)]
      (List.Perm.swap (16, 100) (12, 100) [])
      (by with_unfolding_all decide) (by with_unfolding_all decide),
    (claim_C1_amended.2 12 16 100 (by with_unfolding_all decide)
      (by with_unfolding_all decide) (by norm_num) (by norm_num)).1⟩

/-- C2 counterexample: an analysis pass that finds zero qualifying text
elements (one visible element whose trimmed text is shorter than 10
characters) returns early from `analyzeAndZoom` without writing any session
marker, contradicting the claim that the marker is written `"processed"`
in that case. -/
theorem claim_C2_counterexample :
    (analyzeAndZoom ⟨15, 27/20, 200⟩ none [⟨"short", true, 12⟩]
        (.ok 1) true).markerWrite = none
    ∧ (none : Option String) ≠ some "processed" := by
  with_unfolding_all decide

/-- C2 amended: when at least one qualifying element is found and the
measured predominant size is ≤ 0, the pass writes the marker `"processed"`
and issues no zoom request; but when zero qualifying elements are found the
pass stops with no zoom request and writes no marker at all (so it is
re-attempted on the next navigation). -/
theorem claim_C2_amended :
    (∀ (config : Config) (domElements : List PageElement)
      (gz : GetZoomOutcome) (b : Bool),
      getTextElements domElements ≠ [] →
      calculatePredominantSize (analyzeTextSizes
        ((getTextElements domElements).take config.maxElementsToAnalyze)) ≤ 0 →
      analyzeAndZoom config none domElements gz b =
        ⟨true, some "processed", none⟩)
    ∧ (∀ (config : Config) (domElements : List PageElement)
      (gz : GetZoomOutcome) (b : Bool),
      getTextElements domElements = [] →
      analyzeAndZoom config none domElements gz b = ⟨false, none, none⟩) := by
  constructor
  · intro config domElements gz b hne hle
    rw [analyzeAndZoom]
    rw [if_neg (by simp [markerTruthy])]
    rw [if_neg (by simpa [List.length_eq_zero] using hne)]
    simp only [checkAndApplyZoom, if_pos hle]
  · intro config domElements gz b hnil
    rw [analyzeAndZoom]
    rw [if_neg (by simp [markerTruthy])]
    rw [if_pos (by simp [hnil])]

/-- C2 witness: the amended claim instantiated on a pass with one
qualifying element of font size 0 (histogram stays empty, predominant size
0), and on a pass with no elements at all. -/
theorem claim_C2_witness :
    analyzeAndZoom ⟨15, 27/20, 200⟩ none [⟨"aaaaaaaaaaaa", true, 0⟩]
        (.ok 1) true = ⟨true, some "processed", none⟩
    ∧ analyzeAndZoom ⟨15, 27/20, 200⟩ none [] (.ok 1) true =
        ⟨false, none, none⟩ :=
  ⟨claim_C2_amended.1 ⟨15, 27/20, 200⟩ [⟨"aaaaaaaaaaaa", true, 0⟩] (.ok 1)
      true (by with_unfolding_all decide) (by with_unfolding_all decide),
    claim_C2_amended.2 ⟨15, 27/20, 200⟩ [] (.ok 1) true
      (by with_unfolding_all decide)⟩

/-- C3: starting at current zoom 1.0, converging to target 1.35 with
increment 0.05 applies the steps 1.05, 1.10, 1.15, 1.20, 1.25, 1.30, 1.35
followed by the final exact-set of 1.35, reports success, the intermediate
values are strictly increasing, and the last applied value is exactly
1.35. -/
theorem claim_C3 :
    applyGradualZoom 100 1 (27/20) =
      ([21/20, 11/10, 23/20, 6/5, 5/4, 13/10, 27/20, 27/20], true)
    ∧ List.Pairwise (· < ·) (applyGradualZoom 100 1 (27/20)).1.dropLast
    ∧ (applyGradualZoom 100 1 (27/20)).1.getLast? = some (27/20) := by
  with_unfolding_all decide

/-- C4: with a successful current-zoom read, `checkAndApplyZoom` requests
convergence to the configured `zoomLevel` if and only if
`0 < predominantSize < minFontSize` and not
(`currentZoom ≠ 1.0` and `currentZoom ≥ zoomLevel`); in particular no
request at `predominantSize = minFontSize`, at `predominantSize = 0`, or
at current zoom 1.6 with configured target 1.35. -/
theorem claim_C4 :
    (∀ (config : Config) (p z : ℚ) (b : Bool),
      (checkAndApplyZoom config p (.ok z) b).zoomRequest =
          some config.zoomLevel ↔
        0 < p ∧ p < config.minFontSize ∧ ¬(z ≠ 1 ∧ config.zoomLevel ≤ z))
    ∧ (∀ (config : Config) (z : ℚ) (b : Bool),
      (checkAndApplyZoom config config.minFontSize (.ok z) b).zoomRequest =
        none)
    ∧ (∀ (config : Config) (z : ℚ) (b : Bool),
      (checkAndApplyZoom config 0 (.ok z) b).zoomRequest = none)
    ∧ (∀ (config : Config) (p : ℚ) (b : Bool), config.zoomLevel = 27/20 →
      (checkAndApplyZoom config p (.ok (8/5)) b).zoomRequest = none) := by
  refine ⟨?_, ?_, ?_, ?_⟩
  · intro config p z b
    rw [checkAndApplyZoom]
    split_ifs with h1 h2 h3 h4
    · simp [not_lt.mpr h1]
    · simp [not_lt.mpr h2]
    · simp [h3]
    · exact iff_of_true rfl ⟨not_le.mp h1, not_le.mp h2, h3⟩
    · exact iff_of_true rfl ⟨not_le.mp h1, not_le.mp h2, h3⟩
  · intro config z b
    rw [checkAndApplyZoom]
    split_ifs with h1 h2 <;> first | rfl | exact absurd le_rfl h2
  · intro config z b
    rw [checkAndApplyZoom]
    split_ifs with h1 <;> first | rfl | exact absurd le_rfl h1
  · intro config p b hzl
    rw [checkAndApplyZoom]
    split_ifs with h1 h2 h3 <;>
      first
        | rfl
        | exact absurd ⟨by norm_num, by rw [hzl]; norm_num⟩ h3

/-- C4 witness: with predominant size 10, threshold 15 and current zoom
1.0, convergence to 1.35 is requested; with current zoom 1.6 it is not. -/
theorem claim_C4_witness :
    (checkAndApplyZoom ⟨15, 27/20, 200⟩ 10 (.ok 1) true).zoomRequest =
      some ((27 : ℚ)/20)
    ∧ (checkAndApplyZoom ⟨15, 27/20, 200⟩ 10 (.ok (8/5)) true).zoomRequest =
      none :=
  ⟨(claim_C4.1 ⟨15, 27/20, 200⟩ 10 1 true).mpr
      ⟨by norm_num, by norm_num, by simp⟩,
    claim_C4.2.2.2 ⟨15, 27/20, 200⟩ 10 true rfl⟩

theorem clampZoom_bounds (zoom : ℚ) :
    1/4 ≤ clampZoom zoom ∧ clampZoom zoom ≤ 5 :=
  ⟨le_min (le_max_right _ _) (by norm_num), min_le_right _ _⟩

/-- Every value the gradual-zoom loop passes to the zoom provider lies in
the absolute bounds, provided the requested target does. -/
theorem applyGradualZoom_applied_bounds (fuel : ℕ) :
    ∀ c t : ℚ, 1/4 ≤ t → t ≤ 5 →
    ∀ z ∈ (applyGradualZoom fuel c t).1, 1/4 ≤ z ∧ z ≤ 5 := by
  induction fuel with
  | zero =>
    intro c t ht1 ht2 z hz
    simp [applyGradualZoom] at hz
  | succ n ih =>
    intro c t ht1 ht2 z hz
    rw [applyGradualZoom] at hz
    by_cases htol : |c - t| < 1/100
    · rw [if_pos htol] at hz
      simp at hz
    · rw [if_neg htol] at hz
      by_cases hdir : t > c
      · simp only [hdir, if_true, true_and, not_true, false_and,
          or_false] at hz
        by_cases hreach : clampZoom (c + 1/20) ≥ t
        · rw [if_pos hreach] at hz
          rcases List.mem_cons.mp hz with rfl | hz
          · exact clampZoom_bounds _
          · rcases List.mem_cons.mp hz with rfl | hz
            · exact ⟨ht1, ht2⟩
            · simp at hz
        · rw [if_neg hreach] at hz
          rcases List.mem_cons.mp hz with rfl | hz
          · exact clampZoom_bounds _
          · exact ih _ t ht1 ht2 z hz
      · simp only [hdir, if_false, false_and, not_false_iff, true_and,
          false_or] at hz
        by_cases hreach : clampZoom (c + -(1/20)) ≤ t
        · rw [if_pos hreach] at hz
          rcases List.mem_cons.mp hz with rfl | hz
          · exact clampZoom_bounds _
          · rcases List.mem_cons.mp hz with rfl | hz
            · exact ⟨ht1, ht2⟩
            · simp at hz
        · rw [if_neg hreach] at hz
          rcases List.mem_cons.mp hz with rfl | hz
          · exact clampZoom_bounds _
          · exact ih _ t ht1 ht2 z hz

/-- Each iteration of the gradual-zoom loop moves the current zoom 0.05
closer to the target (or reaches it, or hits the tolerance fast path), so
fuel `k + 1` suffices whenever the distance is at most `k * 0.05`. -/
theorem applyGradualZoom_converges (k : ℕ) :
    ∀ c t : ℚ, 1/4 ≤ c → c ≤ 5 → 1/4 ≤ t → t ≤ 5 →
    |c - t| ≤ (k : ℚ) * (1/20) →
    (applyGradualZoom (k + 1) c t).2 = true := by
  induction k with
  | zero =>
    intro c t hc1 hc2 ht1 ht2 hd
    have h0 : |c - t| ≤ 0 := by simpa using hd
    have htol : |c - t| < 1/100 := lt_of_le_of_lt h0 (by norm_num)
    rw [applyGradualZoom, if_pos htol]
  | succ n ih =>
    intro c t hc1 hc2 ht1 ht2 hd
    by_cases htol : |c - t| < 1/100
    · rw [applyGradualZoom, if_pos htol]
    · rw [applyGradualZoom, if_neg htol]
      by_cases hdir : t > c
      · simp only [hdir, if_true, true_and, not_true, false_and, or_false]
        have hmax : max (c + 1/20) (1/4) = c + 1/20 := max_eq_left (by linarith)
        by_cases hreach : clampZoom (c + 1/20) ≥ t
        · rw [if_pos hreach]
        · rw [if_neg hreach]
          have hnext : clampZoom (c + 1/20) = c + 1/20 := by
            rw [clampZoom, hmax]
            refine min_eq_left ?_
            by_contra hcap
            push_neg at hcap
            exact hreach
              (by rw [clampZoom, hmax, min_eq_right hcap.le]; linarith)
          rw [hnext] at hreach ⊢
          push_neg at hreach
          have habs : |c - t| = t - c := by
            rw [abs_of_nonpos (by linarith)]; ring
          have hd' : |c + 1/20 - t| ≤ (n : ℚ) * (1/20) := by
            rw [abs_of_nonpos (by linarith)]
            rw [habs] at hd
            push_cast at hd
            linarith
          exact ih (c + 1/20) t (by linarith) (by linarith) ht1 ht2 hd'
      · simp only [hdir, if_false, false_and, not_false_iff, true_and,
          false_or]
        have hle : t ≤ c := le_of_not_lt hdir
        have hmin : clampZoom (c + -(1/20)) = max (c + -(1/20)) (1/4) := by
          rw [clampZoom]
          exact min_eq_left (max_le (by linarith) (by norm_num))
        by_cases hfloor : c + -(1/20) ≤ 1/4
        · rw [if_pos (by rw [hmin, max_eq_right hfloor]; linarith)]
        · have hnext : clampZoom (c + -(1/20)) = c + -(1/20) := by
            rw [hmin, max_eq_left (le_of_not_le hfloor)]
          by_cases hreach : clampZoom (c + -(1/20)) ≤ t
          · rw [if_pos hreach]
          · rw [if_neg hreach]
            rw [hnext] at hreach ⊢
            push_neg at hreach
            have habs : |c - t| = c - t := abs_of_nonneg (by linarith)
            have hd' : |c + -(1/20) - t| ≤ (n : ℚ) * (1/20) := by
              rw [abs_of_nonneg (by linarith)]
              rw [habs] at hd
              push_cast at hd
              linarith
            push_neg at hfloor
            exact ih (c + -(1/20)) t (le_of_lt hfloor) (by linarith) ht1 ht2
              hd'

/-- At a NaN target the loop applies exactly one downward-clamped step per
iteration and never reaches a success response, whatever the iteration
budget. -/
theorem applyGradualZoomNaN_spec (fuel : ℕ) :
    ∀ c : ℚ, (applyGradualZoomNaN fuel c).1.length = fuel
      ∧ (applyGradualZoomNaN fuel c).2 = false := by
  induction fuel with
  | zero =>
    intro c
    exact ⟨rfl, rfl⟩
  | succ n ih =>
    intro c
    obtain ⟨h1, h2⟩ := ih (clampZoom (c + -(1/20)))
    rw [applyGradualZoomNaN]
    exact ⟨by simpa using h1, h2⟩

/-- C6 counterexample: the request target `NaN` is outside [0.25, 5.0],
yet `typeof NaN === "number"` and `NaN < 0.25`, `NaN > 5.0` are both
false, so `handleSetZoom` does not answer with the validation failure and
does apply zoom steps (from current zoom 1.0: 0.95, 0.90, 0.85 within
three iterations), refuting the claim for this target. -/
theorem claim_C6_counterexample :
    (handleSetZoom 3 1 .nan).response ≠ .err "Invalid zoom level"
    ∧ (handleSetZoom 3 1 .nan).applied = [19/20, 9/10, 17/20]
    ∧ (handleSetZoom 3 1 .nan).applied ≠ [] := by
  with_unfolding_all decide

/-- C6 amended: a requested target that is a non-NaN number outside
[0.25, 5.0] or not a number at all is rejected with a validation error
(`success:false`, `"Invalid zoom level"`) before any zoom step is applied
— the applied list is empty and the current zoom is never read — and every
intermediate value applied for an in-range request lies within
[0.25, 5.0]; a `NaN` target, however, passes the typeof/range validation
(all comparisons with NaN are false) and the loop applies one
downward-clamped step per iteration without ever reaching a success
response, so no validation failure is ever sent for it. -/
theorem claim_C6_amended :
    (∀ (fuel : ℕ) (c q : ℚ), q < 1/4 ∨ q > 5 →
      handleSetZoom fuel c (.num q) = ⟨.err "Invalid zoom level", [], false⟩)
    ∧ (∀ (fuel : ℕ) (c : ℚ),
      handleSetZoom fuel c .nonNumber =
        ⟨.err "Invalid zoom level", [], false⟩)
    ∧ (∀ (fuel : ℕ) (c q : ℚ), 1/4 ≤ q → q ≤ 5 →
      ∀ z ∈ (handleSetZoom fuel c (.num q)).applied, 1/4 ≤ z ∧ z ≤ 5)
    ∧ (∀ (fuel : ℕ) (c : ℚ),
      (handleSetZoom fuel c .nan).response ≠ .err "Invalid zoom level"
      ∧ (handleSetZoom fuel c .nan).applied.length = fuel
      ∧ (applyGradualZoomNaN fuel c).2 = false) := by
  refine ⟨?_, ?_, ?_, ?_⟩
  · intro fuel c q hq
    simp only [handleSetZoom, if_pos hq]
  · intro fuel c
    rfl
  · intro fuel c q h1 h2 z hz
    have hvalid : ¬(q < 1/4 ∨ q > 5) := by
      push_neg
      exact ⟨h1, h2⟩
    simp only [handleSetZoom, if_neg hvalid] at hz
    exact applyGradualZoom_applied_bounds fuel c q h1 h2 z hz
  · intro fuel c
    obtain ⟨hlen, hdone⟩ := applyGradualZoomNaN_spec fuel c
    refine ⟨?_, ?_, hdone⟩
    · simp only [handleSetZoom, hdone, if_false, Bool.false_eq_true]
      intro hcontra
      exact absurd (Response.err.inj hcontra) (by decide)
    · simp only [handleSetZoom]
      exact hlen

/-- C6 witness: target 10.0 is rejected with no applied step, the first
step 1.05 applied while converging from 1.0 to 1.35 lies within the
absolute bounds, and a NaN target applies one step per iteration. -/
theorem claim_C6_witness :
    handleSetZoom 0 1 (.num 10) = ⟨.err "Invalid zoom level", [], false⟩
    ∧ (1/4 ≤ (21 : ℚ)/20 ∧ (21 : ℚ)/20 ≤ 5)
    ∧ (handleSetZoom 3 1 .nan).applied.length = 3 :=
  ⟨claim_C6_amended.1 0 1 10 (by norm_num),
    claim_C6_amended.2.2.1 50 1 (27/20) (by norm_num) (by norm_num) (21/20)
      (by with_unfolding_all decide),
    (claim_C6_amended.2.2.2 3 1).2.1⟩

/-- C7: when the convergence request fails (the `setZoom` response is not
a success) or the current-zoom read fails, `checkAndApplyZoom` writes no
session marker, so a later navigation in the same session re-attempts the
analysis. -/
theorem claim_C7 :
    (∀ (config : Config) (p z : ℚ),
      (checkAndApplyZoom config p (.ok z) false).zoomRequest.isSome = true →
      (checkAndApplyZoom config p (.ok z) false).markerWrite = none)
    ∧ (∀ (config : Config) (p : ℚ) (b : Bool),
      0 < p → p < config.minFontSize →
      (checkAndApplyZoom config p .err b).markerWrite = none
      ∧ (checkAndApplyZoom config p .err b).zoomRequest = none) := by
  constructor
  · intro config p z hreq
    rw [checkAndApplyZoom] at hreq ⊢
    split_ifs at hreq ⊢ with h1 h2 h3 h4
    · simp at hreq
    · simp at hreq
    · simp at hreq
    · exact absurd h4 (by simp)
    · rfl
  · intro config p b hp hm
    rw [checkAndApplyZoom, if_neg (not_le.mpr hp), if_neg (not_le.mpr hm)]
    exact ⟨rfl, rfl⟩

/-- C7 witness: a failed convergence request at predominant size 10 and a
failed zoom read leave the marker unwritten. -/
theorem claim_C7_witness :
    (checkAndApplyZoom ⟨15, 27/20, 200⟩ 10 (.ok 1) false).markerWrite = none
    ∧ (checkAndApplyZoom ⟨15, 27/20, 200⟩ 10 .err true).markerWrite = none :=
  ⟨claim_C7.1 ⟨15, 27/20, 200⟩ 10 1 (by with_unfolding_all decide),
    (claim_C7.2 ⟨15, 27/20, 200⟩ 10 true (by norm_num) (by norm_num)).1⟩

/-- C8: a domain whose session marker is already set (to `"processed"` or
`"zoomed"`) short-circuits `analyzeAndZoom`: no measurement, no zoom
request, no marker write, and the marker keeps its value. -/
theorem claim_C8 :
    ∀ (config : Config) (s : String) (domElements : List PageElement)
      (gz : GetZoomOutcome) (b : Bool),
    s = "processed" ∨ s = "zoomed" →
    analyzeAndZoom config (some s) domElements gz b = ⟨false, none, none⟩
    ∧ finalMarker (some s)
        (analyzeAndZoom config (some s) domElements gz b) = some s := by
  intro config s domElements gz b hs
  have ht : markerTruthy (some s) = true := by
    rcases hs with rfl | rfl <;> rfl
  refine ⟨?_, ?_⟩
  · rw [analyzeAndZoom, if_pos ht]
  · rw [analyzeAndZoom, if_pos ht]
    rfl

/-- C8 witness: a `"processed"` marker short-circuits a run over a page
with a qualifying element. -/
theorem claim_C8_witness :
    analyzeAndZoom ⟨15, 27/20, 200⟩ (some "processed")
      [⟨"aaaaaaaaaaaa", true, 10⟩] (.ok 1) true = ⟨false, none, none⟩ :=
  (claim_C8 ⟨15, 27/20, 200⟩ "processed" [⟨"aaaaaaaaaaaa", true, 10⟩]
    (.ok 1) true (Or.inl rfl)).1

/-- C9: from any starting zoom and target in [0.25, 5.0], with persistent
steps and no provider errors, the gradual-zoom loop terminates within 96
iterations and reports success. -/
theorem claim_C9 :
    ∀ c t : ℚ, 1/4 ≤ c → c ≤ 5 → 1/4 ≤ t → t ≤ 5 →
    (applyGradualZoom 96 c t).2 = true := by
  intro c t hc1 hc2 ht1 ht2
  refine applyGradualZoom_converges 95 c t hc1 hc2 ht1 ht2 ?_
  rw [abs_sub_le_iff]
  push_cast
  constructor <;> linarith

/-- C9 witness: converging from 1.0 to 1.35 succeeds within the bound. -/
theorem claim_C9_witness : (applyGradualZoom 96 1 (27/20)).2 = true :=
  claim_C9 1 (27/20) (by norm_num) (by norm_num) (by norm_num) (by norm_num)

/-- C10: a message whose sender carries no tab identifier is answered with
`{success:false, error:"Invalid sender"}` and triggers no zoom read and no
zoom write, whatever the action. -/
theorem claim_C10 :
    ∀ (action : BgAction) (fuel : ℕ) (currentZoom : ℚ),
    bgHandleMessage none action fuel currentZoom =
      ⟨.err "Invalid sender", false, []⟩ := by
  intro action fuel currentZoom
  rfl

end Autozoom
